import Mathlib

/-!
Verification of the PCAD particle relaxation system (particles.js / particles.wgsl).

The WGSL compute kernel and the JavaScript driver are shallowly embedded below.
Floating-point values are idealised as real numbers; `vec3<f32>` becomes the
`Vec3` structure; the GPU storage arrays become functions `Nat → Vec3` together
with an element count; the mutable JavaScript `particleSystem` object becomes
the `SysState` structure, and each event handler or per-frame step becomes a
pure state-transformer.  The authoritative source is the first (most complete)
variant of each source file: quad-based `vertexMain`, normal-weighted
repulsion, `sampleRate = 1`, `repulsionRange = 0.8`.
-/

set_option maxHeartbeats 1000000

set_option maxRecDepth 100000

namespace Pcad

/-- A `vec3<f32>` value, idealised over the reals. -/
@[ext]
structure Vec3 where
  x : ℝ
  y : ℝ
  z : ℝ

namespace Vec3

instance : Zero Vec3 := ⟨⟨0, 0, 0⟩⟩

instance : Add Vec3 := ⟨fun a b => ⟨a.x + b.x, a.y + b.y, a.z + b.z⟩⟩

instance : Sub Vec3 := ⟨fun a b => ⟨a.x - b.x, a.y - b.y, a.z - b.z⟩⟩

instance : Neg Vec3 := ⟨fun a => ⟨-a.x, -a.y, -a.z⟩⟩

instance : SMul ℝ Vec3 := ⟨fun c v => ⟨c * v.x, c * v.y, c * v.z⟩⟩

@[simp] theorem zero_x : (0 : Vec3).x = 0 := rfl
@[simp] theorem zero_y : (0 : Vec3).y = 0 := rfl
@[simp] theorem zero_z : (0 : Vec3).z = 0 := rfl
@[simp] theorem add_x (a b : Vec3) : (a + b).x = a.x + b.x := rfl
@[simp] theorem add_y (a b : Vec3) : (a + b).y = a.y + b.y := rfl
@[simp] theorem add_z (a b : Vec3) : (a + b).z = a.z + b.z := rfl
@[simp] theorem sub_x (a b : Vec3) : (a - b).x = a.x - b.x := rfl
@[simp] theorem sub_y (a b : Vec3) : (a - b).y = a.y - b.y := rfl
@[simp] theorem sub_z (a b : Vec3) : (a - b).z = a.z - b.z := rfl
@[simp] theorem neg_x (a : Vec3) : (-a).x = -a.x := rfl
@[simp] theorem neg_y (a : Vec3) : (-a).y = -a.y := rfl
@[simp] theorem neg_z (a : Vec3) : (-a).z = -a.z := rfl
@[simp] theorem smul_x (c : ℝ) (v : Vec3) : (c • v).x = c * v.x := rfl
@[simp] theorem smul_y (c : ℝ) (v : Vec3) : (c • v).y = c * v.y := rfl
@[simp] theorem smul_z (c : ℝ) (v : Vec3) : (c • v).z = c * v.z := rfl

/-- WGSL `dot`. -/
def dot (a b : Vec3) : ℝ := a.x * b.x + a.y * b.y + a.z * b.z

/-- WGSL `length`. -/
noncomputable def length (v : Vec3) : ℝ := Real.sqrt (dot v v)

/-- WGSL `normalize` (`v / length(v)`; the zero vector maps to zero in this
idealisation, where the GPU would produce an indeterminate value). -/
noncomputable def normalize (v : Vec3) : Vec3 := (1 / length v) • v

/-- WGSL componentwise `mix(a, b, t) = a * (1 - t) + b * t`. -/
def mix (a b : Vec3) (t : ℝ) : Vec3 := (1 - t) • a + t • b

theorem dot_self_nonneg (v : Vec3) : 0 ≤ dot v v := by
  have hx := mul_self_nonneg v.x
  have hy := mul_self_nonneg v.y
  have hz := mul_self_nonneg v.z
  unfold dot; linarith

theorem dot_self_eq_zero_iff (v : Vec3) : dot v v = 0 ↔ v = 0 := by
  constructor
  · intro h
    have hx := mul_self_nonneg v.x
    have hy := mul_self_nonneg v.y
    have hz := mul_self_nonneg v.z
    unfold dot at h
    ext
    · exact mul_self_eq_zero.mp (by linarith)
    · exact mul_self_eq_zero.mp (by linarith)
    · exact mul_self_eq_zero.mp (by linarith)
  · intro h; subst h; simp [dot]

theorem dot_self_pos (v : Vec3) (hv : v ≠ 0) : 0 < dot v v :=
  lt_of_le_of_ne (dot_self_nonneg v)
    (fun h => hv ((dot_self_eq_zero_iff v).mp h.symm))

theorem dot_smul_left (c : ℝ) (a b : Vec3) : dot (c • a) b = c * dot a b := by
  simp [dot]; ring

theorem dot_smul_right (c : ℝ) (a b : Vec3) : dot a (c • b) = c * dot a b := by
  simp [dot]; ring

theorem dot_normalize_self (v : Vec3) (hv : v ≠ 0) :
    dot (normalize v) (normalize v) = 1 := by
  have hq : 0 < dot v v := dot_self_pos v hv
  have hs : Real.sqrt (dot v v) * Real.sqrt (dot v v) = dot v v :=
    Real.mul_self_sqrt hq.le
  have hsz : Real.sqrt (dot v v) ≠ 0 := (Real.sqrt_pos.mpr hq).ne'
  unfold normalize length
  rw [dot_smul_left, dot_smul_right]
  have key : 1 / Real.sqrt (dot v v) * (1 / Real.sqrt (dot v v) * dot v v)
      = dot v v / (Real.sqrt (dot v v) * Real.sqrt (dot v v)) := by ring
  rw [key, hs, div_self hq.ne']

theorem smul_zero_vec (v : Vec3) : (0 : ℝ) • v = 0 := by ext <;> simp

end Vec3

/-- One primitive of the Primitive Set: a finite vertical cylinder,
`struct Cylinder` in particles.wgsl. -/
structure Cylinder where
  center : Vec3
  radius : ℝ
  height : ℝ

open Vec3

/-- `fn sdf_finite_cylinder` from particles.wgsl:
`dxz = length(localP.xz) - radius`, `dy = abs(localP.y) - height * 0.5`,
result `max(dxz,dy) + min(max(dxz,dy), 0.0)`. -/
noncomputable def sdf_finite_cylinder (p : Vec3) (cyl : Cylinder) : ℝ :=
  let localP := p - cyl.center
  let dxz := Real.sqrt (localP.x ^ 2 + localP.z ^ 2) - cyl.radius
  let dy := |localP.y| - cyl.height * 0.5
  let outside := max dxz dy
  let inside := min (max dxz dy) 0
  outside + inside

/-- The un-normalized central finite-difference vector of
`fn sdf_cylinder_gradient` (eps = 0.01). -/
noncomputable def sdf_gradient_raw (p : Vec3) (cyl : Cylinder) : Vec3 :=
  let eps : ℝ := 0.01
  ⟨sdf_finite_cylinder (p + ⟨eps, 0, 0⟩) cyl - sdf_finite_cylinder (p - ⟨eps, 0, 0⟩) cyl,
   sdf_finite_cylinder (p + ⟨0, eps, 0⟩) cyl - sdf_finite_cylinder (p - ⟨0, eps, 0⟩) cyl,
   sdf_finite_cylinder (p + ⟨0, 0, eps⟩) cyl - sdf_finite_cylinder (p - ⟨0, 0, eps⟩) cyl⟩

/-- `fn sdf_cylinder_gradient` from particles.wgsl: the normalized
finite-difference gradient. -/
noncomputable def sdf_cylinder_gradient (p : Vec3) (cyl : Cylinder) : Vec3 :=
  normalize (sdf_gradient_raw p cyl)

/-- Membership predicate: `p` lies strictly outside the closed finite
vertical cylinder. -/
noncomputable def strictlyOutside (p : Vec3) (cyl : Cylinder) : Prop :=
  cyl.radius < Real.sqrt ((p.x - cyl.center.x) ^ 2 + (p.z - cyl.center.z) ^ 2)
    ∨ cyl.height / 2 < |p.y - cyl.center.y|

/-- Membership predicate: `p` lies strictly inside the finite vertical
cylinder. -/
noncomputable def strictlyInside (p : Vec3) (cyl : Cylinder) : Prop :=
  Real.sqrt ((p.x - cyl.center.x) ^ 2 + (p.z - cyl.center.z) ^ 2) < cyl.radius
    ∧ |p.y - cyl.center.y| < cyl.height / 2

/-- Claim C9: for every point and every cylinder with positive radius and
height, `sdf_finite_cylinder` is strictly positive iff the point is strictly
outside the finite vertical cylinder, strictly negative iff strictly inside,
and zero exactly on the boundary (outside = positive, inside = negative). -/
theorem sdf_finite_cylinder_sign (p : Vec3) (cyl : Cylinder)
    (hr : 0 < cyl.radius) (hh : 0 < cyl.height) :
    (0 < sdf_finite_cylinder p cyl ↔ strictlyOutside p cyl)
    ∧ (sdf_finite_cylinder p cyl < 0 ↔ strictlyInside p cyl)
    ∧ (sdf_finite_cylinder p cyl = 0 ↔
        ¬strictlyOutside p cyl ∧ ¬strictlyInside p cyl) := by
  have _ := hr
  have _ := hh
  set s := Real.sqrt ((p.x - cyl.center.x) ^ 2 + (p.z - cyl.center.z) ^ 2) with hsdef
  set dxz := s - cyl.radius with hdxz
  set dy := |p.y - cyl.center.y| - cyl.height * 0.5 with hdy
  set m := max dxz dy with hm
  have hsdf : sdf_finite_cylinder p cyl = m + min m 0 := by
    simp only [sdf_finite_cylinder, Vec3.sub_x, Vec3.sub_y, Vec3.sub_z]
  have hsign : (0 < m + min m 0 ↔ 0 < m) ∧ (m + min m 0 < 0 ↔ m < 0)
      ∧ (m + min m 0 = 0 ↔ m = 0) := by
    rcases le_or_lt m 0 with h | h
    · rw [min_eq_left h]
      exact ⟨⟨fun h2 => by linarith, fun h2 => by linarith⟩,
             ⟨fun h2 => by linarith, fun h2 => by linarith⟩,
             ⟨fun h2 => by linarith, fun h2 => by linarith⟩⟩
    · rw [min_eq_right h.le]
      exact ⟨⟨fun h2 => by linarith, fun h2 => by linarith⟩,
             ⟨fun h2 => by linarith, fun h2 => by linarith⟩,
             ⟨fun h2 => by linarith, fun h2 => by linarith⟩⟩
  have hhalf : cyl.height * 0.5 = cyl.height / 2 := by ring
  have hout : strictlyOutside p cyl ↔ 0 < m := by
    rw [hm, lt_max_iff]
    unfold strictlyOutside
    rw [← hsdef, hdxz, hdy, hhalf]
    constructor
    · rintro (h | h)
      · left; linarith
      · right; linarith
    · rintro (h | h)
      · left; linarith
      · right; linarith
  have hin : strictlyInside p cyl ↔ m < 0 := by
    rw [hm, max_lt_iff]
    unfold strictlyInside
    rw [← hsdef, hdxz, hdy, hhalf]
    constructor
    · rintro ⟨h1, h2⟩; exact ⟨by linarith, by linarith⟩
    · rintro ⟨h1, h2⟩; exact ⟨by linarith, by linarith⟩
  refine ⟨?_, ?_, ?_⟩
  · rw [hsdf, hsign.1, hout]
  · rw [hsdf, hsign.2.1, hin]
  · rw [hsdf, hsign.2.2, hout, hin]
    constructor
    · intro h; constructor <;> intro h2 <;> (rw [h] at h2; exact absurd h2 (by simp))
    · rintro ⟨h1, h2⟩
      have := not_lt.mp h1
      have := not_lt.mp h2
      linarith

/-- Witness for C9: the unit cylinder at the origin with radius 1 and height 2
satisfies the hypotheses, so the sign characterisation applies to it. -/
theorem sdf_finite_cylinder_sign_witness :
    (0 : ℝ) < 1 ∧ (0 : ℝ) < 2
    ∧ ((0 < sdf_finite_cylinder ⟨0, 0, 0⟩ ⟨⟨0, 0, 0⟩, 1, 2⟩ ↔
          strictlyOutside ⟨0, 0, 0⟩ ⟨⟨0, 0, 0⟩, 1, 2⟩)
       ∧ (sdf_finite_cylinder ⟨0, 0, 0⟩ ⟨⟨0, 0, 0⟩, 1, 2⟩ < 0 ↔
          strictlyInside ⟨0, 0, 0⟩ ⟨⟨0, 0, 0⟩, 1, 2⟩)
       ∧ (sdf_finite_cylinder ⟨0, 0, 0⟩ ⟨⟨0, 0, 0⟩, 1, 2⟩ = 0 ↔
          ¬strictlyOutside ⟨0, 0, 0⟩ ⟨⟨0, 0, 0⟩, 1, 2⟩
            ∧ ¬strictlyInside ⟨0, 0, 0⟩ ⟨⟨0, 0, 0⟩, 1, 2⟩)) :=
  ⟨zero_lt_one, zero_lt_two,
   sdf_finite_cylinder_sign ⟨0, 0, 0⟩ ⟨⟨0, 0, 0⟩, 1, 2⟩ zero_lt_one zero_lt_two⟩

/-- The per-primitive attraction term accumulated by `computeMain`
(particles.wgsl line 93): `totalForce += -g * d * uniforms.attractionStrength`,
with `g` the normalized finite-difference gradient and `d` the signed
distance. -/
noncomputable def attractionForce (p : Vec3) (cyl : Cylinder) (strength : ℝ) : Vec3 :=
  (-(sdf_finite_cylinder p cyl * strength)) • sdf_cylinder_gradient p cyl

/-- Claim C1: with positive attraction strength and a non-degenerate
finite-difference gradient, the attraction term is zero precisely when the
signed distance is zero (the target standoff distance of this variant), and
at any other distance its component along the outward gradient has the sign
opposite to the signed distance, i.e. it pulls the particle toward the
surface, never away from it. -/
theorem attraction_vanishes_iff_on_surface (p : Vec3) (cyl : Cylinder) (strength : ℝ)
    (hs : 0 < strength) (hg : sdf_gradient_raw p cyl ≠ 0) :
    (attractionForce p cyl strength = 0 ↔ sdf_finite_cylinder p cyl = 0)
    ∧ (sdf_finite_cylinder p cyl ≠ 0 →
        dot (attractionForce p cyl strength) (sdf_cylinder_gradient p cyl)
          * sdf_finite_cylinder p cyl < 0) := by
  have hunit : dot (sdf_cylinder_gradient p cyl) (sdf_cylinder_gradient p cyl) = 1 :=
    dot_normalize_self _ hg
  have hdotF : dot (attractionForce p cyl strength) (sdf_cylinder_gradient p cyl)
      = -(sdf_finite_cylinder p cyl * strength) := by
    unfold attractionForce
    rw [dot_smul_left, hunit, mul_one]
  constructor
  · constructor
    · intro h
      have h0 : dot (attractionForce p cyl strength) (sdf_cylinder_gradient p cyl) = 0 := by
        rw [h]; simp [dot]
      rw [hdotF] at h0
      rcases mul_eq_zero.mp (neg_eq_zero.mp h0) with h1 | h1
      · exact h1
      · exact absurd h1 hs.ne'
    · intro h
      unfold attractionForce
      rw [h, zero_mul, neg_zero]
      exact smul_zero_vec _
  · intro hd
    rw [hdotF]
    have h2 : 0 < sdf_finite_cylinder p cyl * sdf_finite_cylinder p cyl :=
      mul_self_pos.mpr hd
    nlinarith

theorem sdf_unit_axis (y : ℝ) (hy : 1 ≤ y) :
    sdf_finite_cylinder ⟨0, y, 0⟩ ⟨⟨0, 0, 0⟩, 1, 2⟩ = y - 1 := by
  simp only [sdf_finite_cylinder, Vec3.sub_x, Vec3.sub_y, Vec3.sub_z]
  norm_num [Real.sqrt_zero]
  rw [abs_of_nonneg (by linarith : (0:ℝ) ≤ y)]
  rw [min_eq_right (by linarith : (0:ℝ) ≤ y - 1)]
  ring

theorem grad_raw_witness_y :
    (sdf_gradient_raw ⟨0, 2, 0⟩ ⟨⟨0, 0, 0⟩, 1, 2⟩).y = 0.02 := by
  have h1 : (⟨0, 2, 0⟩ : Vec3) + ⟨0, 0.01, 0⟩ = ⟨0, 2.01, 0⟩ := by ext <;> norm_num
  have h2 : (⟨0, 2, 0⟩ : Vec3) - ⟨0, 0.01, 0⟩ = ⟨0, 1.99, 0⟩ := by ext <;> norm_num
  simp only [sdf_gradient_raw]
  rw [h1, h2, sdf_unit_axis 2.01 (by norm_num), sdf_unit_axis 1.99 (by norm_num)]
  norm_num

theorem grad_raw_witness_ne :
    sdf_gradient_raw ⟨0, 2, 0⟩ ⟨⟨0, 0, 0⟩, 1, 2⟩ ≠ 0 := by
  intro h
  have hy := congrArg Vec3.y h
  rw [grad_raw_witness_y] at hy
  norm_num [Vec3.zero_y] at hy

/-- Witness for C1: at the point `(0,2,0)` above the unit cylinder the
finite-difference gradient is non-degenerate and the strength 1 is positive,
so the vanishing/sign theorem applies there. -/
theorem attraction_vanishes_witness :
    (0 : ℝ) < 1 ∧ sdf_gradient_raw ⟨0, 2, 0⟩ ⟨⟨0, 0, 0⟩, 1, 2⟩ ≠ 0
    ∧ ((attractionForce ⟨0, 2, 0⟩ ⟨⟨0, 0, 0⟩, 1, 2⟩ 1 = 0 ↔
         sdf_finite_cylinder ⟨0, 2, 0⟩ ⟨⟨0, 0, 0⟩, 1, 2⟩ = 0)
       ∧ (sdf_finite_cylinder ⟨0, 2, 0⟩ ⟨⟨0, 0, 0⟩, 1, 2⟩ ≠ 0 →
          dot (attractionForce ⟨0, 2, 0⟩ ⟨⟨0, 0, 0⟩, 1, 2⟩ 1)
              (sdf_cylinder_gradient ⟨0, 2, 0⟩ ⟨⟨0, 0, 0⟩, 1, 2⟩)
            * sdf_finite_cylinder ⟨0, 2, 0⟩ ⟨⟨0, 0, 0⟩, 1, 2⟩ < 0)) :=
  ⟨zero_lt_one, grad_raw_witness_ne,
   attraction_vanishes_iff_on_surface _ _ _ zero_lt_one grad_raw_witness_ne⟩

/-- Cutoff radius of the neighbour-repulsion loop in `computeMain`
(`let repulsionRange = 0.8`). -/
noncomputable def repulsionRange : ℝ := 0.8

/-- Softening constant of the repulsion denominator (`let softening = 0.1`). -/
noncomputable def softening : ℝ := 0.1

/-- The contribution of neighbour `j` (position `pj`, combined normal `gj`) to
the repulsion force on the particle at `p` (combined normal `gi`), from the
loop body of `computeMain` (particles.wgsl lines 109-132). -/
noncomputable def repulsionContrib (p pj gi gj : Vec3) (repulsionStrength : ℝ) : Vec3 :=
  let dir := p - pj
  let dist := length dir
  if dist < 0.0001 ∨ repulsionRange < dist then 0
  else
    let normalDot := dot gi gj
    let normalWeight := normalDot ^ 2 * 5
    (repulsionStrength * normalWeight / (dist * dist + softening)) • normalize dir

/-- Claim C2: the repulsion contribution of a neighbour is exactly zero when
the separation is below the 1e-4 minimum-distance guard or above the cutoff
radius 0.8; otherwise it equals
`normalize(p - pj) * repulsionStrength * weight / (dist^2 + softening)` with
the normal-similarity weight `dot(gi, gj)^2 * 5`. -/
theorem repulsion_guard_and_formula (p pj gi gj : Vec3) (rs : ℝ) :
    (length (p - pj) < 0.0001 ∨ repulsionRange < length (p - pj) →
      repulsionContrib p pj gi gj rs = 0)
    ∧ (0.0001 ≤ length (p - pj) → length (p - pj) ≤ repulsionRange →
      repulsionContrib p pj gi gj rs
        = (rs * (dot gi gj ^ 2 * 5)
            / (length (p - pj) * length (p - pj) + softening))
              • normalize (p - pj)) := by
  constructor
  · intro h
    unfold repulsionContrib
    rw [if_pos h]
  · intro h1 h2
    unfold repulsionContrib
    rw [if_neg (by push_neg; exact ⟨h1, h2⟩)]

theorem length_self_sub_lt_guard :
    length ((⟨0, 0, 0⟩ : Vec3) - ⟨0, 0, 0⟩) < 0.0001 := by
  unfold length dot
  norm_num [Real.sqrt_zero]

/-- Witness for C2: two coincident particles are separated by less than the
minimum-distance guard, so their repulsion contribution is exactly zero. -/
theorem repulsion_guard_witness :
    repulsionContrib ⟨0, 0, 0⟩ ⟨0, 0, 0⟩ ⟨0, 0, 0⟩ ⟨0, 0, 0⟩ 1 = 0 :=
  (repulsion_guard_and_formula ⟨0, 0, 0⟩ ⟨0, 0, 0⟩ ⟨0, 0, 0⟩ ⟨0, 0, 0⟩ 1).1
    (Or.inl length_self_sub_lt_guard)

/-- Deterministic pseudo-random jitter of `computeMain` (particles.wgsl
lines 142-146): trigonometric functions of elapsed time and lane index,
amplitude 0.01. -/
noncomputable def kernelNoise (time : ℝ) (i : ℕ) : Vec3 :=
  ⟨Real.sin (time * 5 + (i : ℝ) * 0.1) * 0.01,
   Real.cos (time * 4 + (i : ℝ) * 0.2) * 0.01,
   Real.sin (time * 3 + (i : ℝ) * 0.3) * 0.01⟩

/-- The combined surface normal of a particle: the per-cylinder normalized
gradients are summed and the sum is normalized (`gi`/`gj` in `computeMain`). -/
noncomputable def combinedGradient (cyls : List Cylinder) (p : Vec3) : Vec3 :=
  normalize (cyls.map (fun cyl => sdf_cylinder_gradient p cyl)).sum

/-- The weak re-centering force of `computeMain` (lines 134-139): subtract
`p * 0.01` only when the distance to the origin exceeds 5. -/
noncomputable def originForce (p : Vec3) : Vec3 :=
  if 5 < length p then (-0.01 : ℝ) • p else 0

/-- Nearest-cylinder colour assignment of `computeMain` (lines 81-99):
fold over the cylinder list tracking the signed distance of minimum absolute
value, starting from 1000 and white, assigning magenta on every improvement. -/
noncomputable def nearestColorOf (cyls : List Cylinder) (p : Vec3) : Vec3 :=
  (cyls.foldl
    (fun acc cyl =>
      if |sdf_finite_cylinder p cyl| < |acc.1| then
        (sdf_finite_cylinder p cyl, (⟨1, 0, 1⟩ : Vec3))
      else acc)
    ((1000 : ℝ), (⟨1, 1, 1⟩ : Vec3))).2

/-- The total force accumulated by `computeMain` for lane `i`: attraction to
every cylinder, normal-weighted repulsion from every other particle
(`sampleRate = 1`), the conditional re-centering force, and the jitter. -/
noncomputable def totalForce (cyls : List Cylinder) (P : ℕ → Vec3) (n : ℕ)
    (time repulsionStrength attractionStrength : ℝ) (i : ℕ) : Vec3 :=
  let p := P i
  let gi := combinedGradient cyls p
  (cyls.map (fun cyl => attractionForce p cyl attractionStrength)).sum
    + ((List.range n).map (fun j =>
        if j = i then 0
        else repulsionContrib p (P j) gi (combinedGradient cyls (P j))
          repulsionStrength)).sum
    + originForce p
    + kernelNoise time i

/-- One lane of `computeMain`: `none` when the guard
`i >= arrayLength(&positions)` fires (the lane returns without writing),
otherwise the updated (position, velocity, colour) triple written back for
particle `i`. -/
noncomputable def computeLane (cyls : List Cylinder) (P V C : ℕ → Vec3) (n : ℕ)
    (time dt repulsionStrength attractionStrength : ℝ) (i : ℕ) :
    Option (Vec3 × Vec3 × Vec3) :=
  if n ≤ i then none
  else
    let p := P i
    let v := V i
    let F := totalForce cyls P n time repulsionStrength attractionStrength i
    let v1 := (0.98 : ℝ) • v
    let v2 := v1 + dt • F
    let p1 := p + dt • v2
    some (p1, v2, mix (C i) (nearestColorOf cyls p) 0.05)

theorem mix_eq_smul (a b : Vec3) :
    mix a b 0.05 = (0.95 : ℝ) • a + (0.05 : ℝ) • b := by
  unfold mix
  ext <;>
    simp only [Vec3.add_x, Vec3.add_y, Vec3.add_z,
      Vec3.smul_x, Vec3.smul_y, Vec3.smul_z] <;>
    ring

/-- Claim C3: one kernel step updates lane `i < n` as
`v1 = 0.98 * v + totalForce * dt` (damping applied to the old velocity before
the force is integrated), `p1 = p + v1 * dt` (the already-updated velocity
advances the position), and the written-back colour is
`mix(oldColor, nearestColor, 0.05)`, i.e. 95% of the old colour plus 5% of the
assigned colour, never an instantaneous reassignment. -/
theorem integration_update_order (cyls : List Cylinder) (P V C : ℕ → Vec3) (n : ℕ)
    (time dt rs as : ℝ) (i : ℕ) (h : i < n) :
    computeLane cyls P V C n time dt rs as i
      = some
          (P i + dt • ((0.98 : ℝ) • V i + dt • totalForce cyls P n time rs as i),
           (0.98 : ℝ) • V i + dt • totalForce cyls P n time rs as i,
           (0.95 : ℝ) • C i + (0.05 : ℝ) • nearestColorOf cyls (P i)) := by
  unfold computeLane
  rw [if_neg (not_le.mpr h)]
  simp only [mix_eq_smul]

/-- Witness for C3: the update shape holds at the concrete lane 0 of a
one-particle system with no cylinders and all state zero. -/
theorem integration_update_order_witness :
    computeLane [] (fun _ => 0) (fun _ => 0) (fun _ => 0) 1 0 0 0 0 0
      = some
          ((0 : Vec3) + (0 : ℝ) • ((0.98 : ℝ) • (0 : Vec3)
              + (0 : ℝ) • totalForce [] (fun _ => 0) 1 0 0 0 0),
           (0.98 : ℝ) • (0 : Vec3) + (0 : ℝ) • totalForce [] (fun _ => 0) 1 0 0 0 0,
           (0.95 : ℝ) • (0 : Vec3) + (0.05 : ℝ) • nearestColorOf [] (0 : Vec3)) :=
  integration_update_order [] (fun _ => 0) (fun _ => 0) (fun _ => 0) 1 0 0 0 0 0
    Nat.one_pos

/-- The particle-array indices touched by one lane of `computeMain`, in
program order: reads of `positions[i]` and `velocities[i]`, the neighbour
loop's reads of `positions[j]` for every `j ≠ i` below the count, the
write-backs of `velocities[i]` and `positions[i]`, and the read-modify-write
of `colors[i]`. Empty when the guard returns early. -/
def laneParticleAccesses (i n : ℕ) : List ℕ :=
  if n ≤ i then []
  else [i, i] ++ (List.range n).filter (fun j => j ≠ i) ++ [i, i, i, i]

/-- Claim C10: a lane whose global index is at least the particle count
returns immediately, writing nothing and touching no particle-array element;
and every particle-array access any lane performs is at an index strictly
below the array length. -/
theorem kernel_guard_bounds (cyls : List Cylinder) (P V C : ℕ → Vec3) (n : ℕ)
    (time dt rs as : ℝ) (i : ℕ) :
    (n ≤ i → computeLane cyls P V C n time dt rs as i = none
      ∧ laneParticleAccesses i n = [])
    ∧ (∀ a ∈ laneParticleAccesses i n, a < n) := by
  constructor
  · intro h
    constructor
    · unfold computeLane; rw [if_pos h]
    · unfold laneParticleAccesses; rw [if_pos h]
  · intro a ha
    unfold laneParticleAccesses at ha
    by_cases h : n ≤ i
    · rw [if_pos h] at ha
      simp at ha
    · rw [if_neg h] at ha
      push_neg at h
      simp only [List.mem_append, List.mem_cons, List.mem_filter, List.mem_range,
        List.not_mem_nil, or_false, decide_eq_true_eq] at ha
      rcases ha with ((ha | ha) | ⟨ha, -⟩) | (ha | ha | ha | ha) <;>
        first
        | exact ha
        | (subst ha; exact h)

/-- Witness for C10: lane 5 of a 3-particle system returns immediately with
no particle-array accesses. -/
theorem kernel_guard_bounds_witness :
    computeLane [] (fun _ => 0) (fun _ => 0) (fun _ => 0) 3 0 0 0 0 5 = none
    ∧ laneParticleAccesses 5 3 = [] :=
  (kernel_guard_bounds [] (fun _ => 0) (fun _ => 0) (fun _ => 0) 3 0 0 0 0 5).1
    (by decide)

/-- The clamped timestep of one scheduler tick (particles.js line 327):
`dt = Math.min(0.033, now - lastFrameTime)`. -/
noncomputable def frameDt (now lastFrameTime : ℝ) : ℝ := min 0.033 (now - lastFrameTime)

/-- The elapsed time of one scheduler tick (`time = now - startTime`). -/
noncomputable def frameTime (now startTime : ℝ) : ℝ := now - startTime

/-- The camera position computed each tick (particles.js lines 333-339):
radius 10, height 3, angular speed 0.3. -/
noncomputable def cameraPosition (time : ℝ) : Vec3 :=
  ⟨10 * Real.sin (time * 0.3),
   3 * Real.sin (time * 0.3 * 0.5),
   10 * Real.cos (time * 0.3)⟩

/-- The 8 floats written to the head of the uniform buffer each tick
(particles.js lines 342-349): camera position, aspect ratio, time, dt,
numCylinders = 3, padding. -/
noncomputable def frameUniformData (now lastFrameTime startTime aspect : ℝ) : List ℝ :=
  [(cameraPosition (frameTime now startTime)).x,
   (cameraPosition (frameTime now startTime)).y,
   (cameraPosition (frameTime now startTime)).z,
   aspect,
   frameTime now startTime,
   frameDt now lastFrameTime,
   3, 0]

/-- Claim C4: on every tick the dt written into Parameters (entry 5 of the
uniform write) is at most 0.033 for every measured wall-clock delta, elapsed
time strictly advances with the wall clock, and the camera position written
that tick is (R sin(t s), H sin(t s / 2), R cos(t s)) with R = 10, H = 3,
s = 0.3. -/
theorem frame_dt_clamped_and_orbit (now lastFrameTime startTime aspect : ℝ) :
    frameDt now lastFrameTime ≤ 0.033
    ∧ (∀ later, now < later → frameTime now startTime < frameTime later startTime)
    ∧ (frameUniformData now lastFrameTime startTime aspect)[5]?
        = some (frameDt now lastFrameTime)
    ∧ cameraPosition (frameTime now startTime)
        = ⟨10 * Real.sin (frameTime now startTime * 0.3),
           3 * Real.sin (frameTime now startTime * 0.3 / 2),
           10 * Real.cos (frameTime now startTime * 0.3)⟩ := by
  refine ⟨min_le_left _ _, ?_, rfl, ?_⟩
  · intro later hl
    unfold frameTime
    linarith
  · unfold cameraPosition
    have hy : frameTime now startTime * 0.3 * 0.5
        = frameTime now startTime * 0.3 / 2 := by ring
    rw [hy]

/-- Witness for C4: at the concrete tick (now = 1, last = 0, start = 0) the
dt bound holds and elapsed time strictly advances to the next tick at 2. -/
theorem frame_dt_clamped_and_orbit_witness :
    frameDt 1 0 ≤ 0.033 ∧ frameTime 1 0 < frameTime 2 0 :=
  ⟨(frame_dt_clamped_and_orbit 1 0 0 1).1,
   (frame_dt_clamped_and_orbit 1 0 0 1).2.1 2 one_lt_two⟩

/-- The contents of the 48-byte uniform buffer (`struct Uniforms`). -/
structure UniformParams where
  cameraX : ℝ
  cameraY : ℝ
  cameraZ : ℝ
  aspectRatio : ℝ
  time : ℝ
  dt : ℝ
  numCylinders : ℝ
  repulsionStrength : ℝ
  attractionStrength : ℝ

/-- The mutable `particleSystem` object of particles.js together with the
canvas and the GPU resources it owns.  Buffers and bind groups are tracked by
their element counts and generation number; `frameScheduled` records whether a
`requestAnimationFrame` callback is pending. -/
structure SysState where
  particleCount : ℕ
  running : Bool
  frameScheduled : Bool
  positions : List Vec3
  velocities : List Vec3
  colors : List Vec3
  bufferGeneration : ℕ
  bufferElemCount : ℕ
  computeBindGroupBufSize : ℕ
  renderBindGroupBufSize : ℕ
  uniformBufferExists : Bool
  params : UniformParams
  canvasW : ℕ
  canvasH : ℕ
  depthW : ℕ
  depthH : ℕ

/-- `resizeCanvas` from particles.js (lines 35-61): set the canvas size,
write the new width/height ratio at byte offset 12 of the uniform buffer
(only if that buffer already exists), and recreate the depth texture at the
canvas size. -/
noncomputable def resizeCanvas (s : SysState) (w h : ℕ) : SysState :=
  { s with
    canvasW := w
    canvasH := h
    params := if s.uniformBufferExists
      then { s.params with aspectRatio := (w : ℝ) / (h : ℝ) }
      else s.params
    depthW := w
    depthH := h }

/-- Claim C5: a viewport-resize event sets the aspect-ratio field of
Parameters to exactly the new width/height ratio and recreates the depth
target at the new size, while every particle position, velocity and colour
and every other parameter field are left untouched. -/
theorem resize_only_aspect_and_depth (s : SysState) (w h : ℕ)
    (hub : s.uniformBufferExists = true) :
    (resizeCanvas s w h).params.aspectRatio = (w : ℝ) / (h : ℝ)
    ∧ (resizeCanvas s w h).positions = s.positions
    ∧ (resizeCanvas s w h).velocities = s.velocities
    ∧ (resizeCanvas s w h).colors = s.colors
    ∧ (resizeCanvas s w h).params.cameraX = s.params.cameraX
    ∧ (resizeCanvas s w h).params.cameraY = s.params.cameraY
    ∧ (resizeCanvas s w h).params.cameraZ = s.params.cameraZ
    ∧ (resizeCanvas s w h).params.time = s.params.time
    ∧ (resizeCanvas s w h).params.dt = s.params.dt
    ∧ (resizeCanvas s w h).params.numCylinders = s.params.numCylinders
    ∧ (resizeCanvas s w h).params.repulsionStrength = s.params.repulsionStrength
    ∧ (resizeCanvas s w h).params.attractionStrength = s.params.attractionStrength
    ∧ (resizeCanvas s w h).particleCount = s.particleCount
    ∧ (resizeCanvas s w h).bufferGeneration = s.bufferGeneration
    ∧ (resizeCanvas s w h).depthW = w ∧ (resizeCanvas s w h).depthH = h := by
  simp [resizeCanvas, hub]

/-- The initial uniform values written by `createParticleBuffers`
(camera (0,0,-10), dt 0.016, 3 cylinders). -/
noncomputable def baseParams : UniformParams :=
  ⟨0, 0, -10, 1, 0, 0.016, 3, 0.5, 0.5⟩

/-- A concrete post-initialisation system state used by the witnesses. -/
noncomputable def baseState : SysState where
  particleCount := 1024
  running := false
  frameScheduled := false
  positions := []
  velocities := []
  colors := []
  bufferGeneration := 0
  bufferElemCount := 0
  computeBindGroupBufSize := 0
  renderBindGroupBufSize := 0
  uniformBufferExists := true
  params := baseParams
  canvasW := 800
  canvasH := 600
  depthW := 800
  depthH := 600

/-- Witness for C5: resizing the concrete post-initialisation state to
1920x1080 only rewrites the aspect ratio and the depth target. -/
theorem resize_only_aspect_and_depth_witness :
    (resizeCanvas baseState 1920 1080).params.aspectRatio = (1920 : ℝ) / 1080
    ∧ (resizeCanvas baseState 1920 1080).positions = baseState.positions
    ∧ (resizeCanvas baseState 1920 1080).velocities = baseState.velocities
    ∧ (resizeCanvas baseState 1920 1080).colors = baseState.colors
    ∧ (resizeCanvas baseState 1920 1080).params.cameraX = baseState.params.cameraX
    ∧ (resizeCanvas baseState 1920 1080).params.cameraY = baseState.params.cameraY
    ∧ (resizeCanvas baseState 1920 1080).params.cameraZ = baseState.params.cameraZ
    ∧ (resizeCanvas baseState 1920 1080).params.time = baseState.params.time
    ∧ (resizeCanvas baseState 1920 1080).params.dt = baseState.params.dt
    ∧ (resizeCanvas baseState 1920 1080).params.numCylinders
        = baseState.params.numCylinders
    ∧ (resizeCanvas baseState 1920 1080).params.repulsionStrength
        = baseState.params.repulsionStrength
    ∧ (resizeCanvas baseState 1920 1080).params.attractionStrength
        = baseState.params.attractionStrength
    ∧ (resizeCanvas baseState 1920 1080).particleCount = baseState.particleCount
    ∧ (resizeCanvas baseState 1920 1080).bufferGeneration = baseState.bufferGeneration
    ∧ (resizeCanvas baseState 1920 1080).depthW = 1920
    ∧ (resizeCanvas baseState 1920 1080).depthH = 1080 :=
  resize_only_aspect_and_depth baseState 1920 1080 rfl

/-- One particle position seeded by `createParticleBuffers` (lines 96-102)
from three uniform draws: angles `theta = u1 * 2 pi`,
`phi = acos(2 u2 - 1)` and cube-root-scaled radius `r = 2 * u3^(1/3)`. -/
noncomputable def seedPosition (u1 u2 u3 : ℝ) : Vec3 :=
  let theta := u1 * (2 * Real.pi)
  let phi := Real.arccos (2 * u2 - 1)
  let r := 2 * u3 ^ ((1 : ℝ) / 3)
  ⟨r * Real.sin phi * Real.cos theta,
   r * Real.sin phi * Real.sin theta,
   r * Real.cos phi⟩

/-- One particle velocity seeded from three uniform draws
(`(Math.random() - 0.5) * 0.2` per component). -/
noncomputable def seedVelocity (u4 u5 u6 : ℝ) : Vec3 :=
  ⟨(u4 - 0.5) * 0.2, (u5 - 0.5) * 0.2, (u6 - 0.5) * 0.2⟩

/-- The colour seeded from a particle's initial position (lines 110-112). -/
noncomputable def seedColor (pos : Vec3) : Vec3 :=
  ⟨0.5 + Real.sin pos.x * 0.5,
   0.5 + Real.sin pos.y * 0.5,
   0.5 + Real.cos pos.z * 0.5⟩

/-- All seeded positions; particle `i` consumes draws `6i .. 6i+2` of the
random stream `u`. -/
noncomputable def seedPositions (n : ℕ) (u : ℕ → ℝ) : List Vec3 :=
  (List.range n).map fun i => seedPosition (u (6 * i)) (u (6 * i + 1)) (u (6 * i + 2))

/-- All seeded velocities; particle `i` consumes draws `6i+3 .. 6i+5`. -/
noncomputable def seedVelocities (n : ℕ) (u : ℕ → ℝ) : List Vec3 :=
  (List.range n).map fun i =>
    seedVelocity (u (6 * i + 3)) (u (6 * i + 4)) (u (6 * i + 5))

/-- `createParticleBuffers` from particles.js: reseed the three particle
arrays at the current count, destroy the old buffers and allocate a fresh
generation, and rebuild both bind groups against the new buffers. -/
noncomputable def createParticleBuffers (s : SysState) (u : ℕ → ℝ) : SysState :=
  { s with
    positions := seedPositions s.particleCount u
    velocities := seedVelocities s.particleCount u
    colors := (seedPositions s.particleCount u).map seedColor
    bufferGeneration := s.bufferGeneration + 1
    bufferElemCount := s.particleCount
    computeBindGroupBufSize := s.particleCount
    renderBindGroupBufSize := s.particleCount
    uniformBufferExists := true }

/-- `startAnimation` from particles.js (lines 315-388): a no-op when already
Running, otherwise enter Running and schedule the first frame callback. -/
noncomputable def startAnimation (s : SysState) : SysState :=
  if s.running then s else { s with running := true, frameScheduled := true }

/-- The `countSlider` input handler (particles.js lines 175-187): cancel the
pending frame and leave Running, set the new count, rebuild all buffers and
bind groups, and restart the animation. -/
noncomputable def handleCountChange (s : SysState) (newCount : ℕ) (u : ℕ → ℝ) :
    SysState :=
  let s1 := if s.running then { s with running := false, frameScheduled := false }
            else s
  let s2 := { s1 with particleCount := newCount }
  startAnimation (createParticleBuffers s2 u)

theorem seed_component_abs_le (u : ℝ) (h0 : 0 ≤ u) (h1 : u ≤ 1) :
    |(u - 0.5) * 0.2| ≤ 0.1 := by
  rw [abs_le]
  constructor <;> nlinarith

theorem seedPosition_length_le (u1 u2 u3 : ℝ) (h0 : 0 ≤ u3) (h1 : u3 ≤ 1) :
    length (seedPosition u1 u2 u3) ≤ 2 := by
  have h5 := Real.sin_sq_add_cos_sq (u1 * (2 * Real.pi))
  have h6 := Real.sin_sq_add_cos_sq (Real.arccos (2 * u2 - 1))
  have hr0 : (0 : ℝ) ≤ 2 * u3 ^ ((1 : ℝ) / 3) := by positivity
  have hr2 : 2 * u3 ^ ((1 : ℝ) / 3) ≤ 2 := by
    have := Real.rpow_le_one h0 h1 (by norm_num : (0:ℝ) ≤ 1 / 3)
    linarith
  have hdot : dot (seedPosition u1 u2 u3) (seedPosition u1 u2 u3)
      = (2 * u3 ^ ((1 : ℝ) / 3)) ^ 2 := by
    simp only [seedPosition, dot]
    linear_combination
      ((2 * u3 ^ ((1 : ℝ) / 3)) ^ 2 * Real.sin (Real.arccos (2 * u2 - 1)) ^ 2) * h5
        + (2 * u3 ^ ((1 : ℝ) / 3)) ^ 2 * h6
  unfold length
  rw [hdot, Real.sqrt_sq hr0]
  exact hr2

theorem seedPositions_mem_le (n : ℕ) (u : ℕ → ℝ)
    (hu : ∀ k, 0 ≤ u k ∧ u k ≤ 1) :
    ∀ p ∈ seedPositions n u, length p ≤ 2 := by
  intro p hp
  simp only [seedPositions, List.mem_map, List.mem_range] at hp
  obtain ⟨i, -, rfl⟩ := hp
  exact seedPosition_length_le _ _ _ (hu _).1 (hu _).2

theorem seedVelocities_mem_le (n : ℕ) (u : ℕ → ℝ)
    (hu : ∀ k, 0 ≤ u k ∧ u k ≤ 1) :
    ∀ v ∈ seedVelocities n u, |v.x| ≤ 0.1 ∧ |v.y| ≤ 0.1 ∧ |v.z| ≤ 0.1 := by
  intro v hv
  simp only [seedVelocities, List.mem_map, List.mem_range] at hv
  obtain ⟨i, -, rfl⟩ := hv
  exact ⟨seed_component_abs_le _ (hu _).1 (hu _).2,
         seed_component_abs_le _ (hu _).1 (hu _).2,
         seed_component_abs_le _ (hu _).1 (hu _).2⟩

theorem handleCountChange_eq (s : SysState) (newCount : ℕ) (u : ℕ → ℝ) :
    handleCountChange s newCount u
      = { particleCount := newCount
          running := true
          frameScheduled := true
          positions := seedPositions newCount u
          velocities := seedVelocities newCount u
          colors := (seedPositions newCount u).map seedColor
          bufferGeneration := s.bufferGeneration + 1
          bufferElemCount := newCount
          computeBindGroupBufSize := newCount
          renderBindGroupBufSize := newCount
          uniformBufferExists := true
          params := s.params
          canvasW := s.canvasW
          canvasH := s.canvasH
          depthW := s.depthW
          depthH := s.depthH } := by
  unfold handleCountChange startAnimation createParticleBuffers
  by_cases hr : s.running <;> simp [hr]

/-- Claim C6: after a particle-count change to `newCount`, all three particle
arrays have exactly `newCount` index-aligned entries, every reseeded position
lies within the radius-2 sphere, every velocity component lies within the
0.1 jitter bound, the colours are the deterministic `seedColor` function of
the index-aligned initial positions, and both bind groups (hence every later
dispatch and draw) reference buffers sized for `newCount`, not the old
count. -/
theorem count_change_reseeds (s : SysState) (newCount : ℕ) (u : ℕ → ℝ)
    (hu : ∀ k, 0 ≤ u k ∧ u k ≤ 1) :
    ((handleCountChange s newCount u).positions.length = newCount
      ∧ (handleCountChange s newCount u).velocities.length = newCount
      ∧ (handleCountChange s newCount u).colors.length = newCount)
    ∧ (∀ p ∈ (handleCountChange s newCount u).positions, length p ≤ 2)
    ∧ (∀ v ∈ (handleCountChange s newCount u).velocities,
        |v.x| ≤ 0.1 ∧ |v.y| ≤ 0.1 ∧ |v.z| ≤ 0.1)
    ∧ (handleCountChange s newCount u).colors
        = ((handleCountChange s newCount u).positions).map seedColor
    ∧ (handleCountChange s newCount u).particleCount = newCount
    ∧ (handleCountChange s newCount u).bufferElemCount = newCount
    ∧ (handleCountChange s newCount u).computeBindGroupBufSize = newCount
    ∧ (handleCountChange s newCount u).renderBindGroupBufSize = newCount := by
  rw [handleCountChange_eq]
  refine ⟨⟨?_, ?_, ?_⟩, ?_, ?_, rfl, rfl, rfl, rfl, rfl⟩
  · simp [seedPositions]
  · simp [seedVelocities]
  · simp [seedPositions]
  · exact seedPositions_mem_le newCount u hu
  · exact seedVelocities_mem_le newCount u hu

/-- Witness for C6: the degenerate random stream that always draws 0 is a
valid stream, so the reseeding theorem applies to the concrete change from
1024 to 2048 particles. -/
theorem count_change_reseeds_witness :
    ((handleCountChange baseState 2048 (fun _ => 0)).positions.length = 2048
      ∧ (handleCountChange baseState 2048 (fun _ => 0)).velocities.length = 2048
      ∧ (handleCountChange baseState 2048 (fun _ => 0)).colors.length = 2048)
    ∧ (∀ p ∈ (handleCountChange baseState 2048 (fun _ => 0)).positions,
        length p ≤ 2)
    ∧ (∀ v ∈ (handleCountChange baseState 2048 (fun _ => 0)).velocities,
        |v.x| ≤ 0.1 ∧ |v.y| ≤ 0.1 ∧ |v.z| ≤ 0.1)
    ∧ (handleCountChange baseState 2048 (fun _ => 0)).colors
        = ((handleCountChange baseState 2048 (fun _ => 0)).positions).map seedColor
    ∧ (handleCountChange baseState 2048 (fun _ => 0)).particleCount = 2048
    ∧ (handleCountChange baseState 2048 (fun _ => 0)).bufferElemCount = 2048
    ∧ (handleCountChange baseState 2048 (fun _ => 0)).computeBindGroupBufSize = 2048
    ∧ (handleCountChange baseState 2048 (fun _ => 0)).renderBindGroupBufSize
        = 2048 :=
  count_change_reseeds baseState 2048 (fun _ => 0)
    (fun _ => ⟨le_refl 0, zero_le_one⟩)

/-- Control-flow effect of one `frame()` callback (particles.js lines
322-385) on the scheduler fields: the pending callback is consumed; if the
body raises, the trailing `requestAnimationFrame(frame)` is never reached, so
no further tick is armed — and nothing resets `running`.  A normal tick
re-arms the next callback. -/
noncomputable def frameTickSchedule (s : SysState) (raises : Bool) : SysState :=
  if raises then { s with frameScheduled := false }
  else { s with frameScheduled := true }

/-- A concrete Running scheduler state with a pending frame callback. -/
noncomputable def runningState : SysState :=
  { baseState with running := true, frameScheduled := true }

/-- Counterexample to C7: after an exception inside a tick of the concrete
Running state, the scheduler does NOT transition to Idle — `running` is still
`true` — and a subsequent `startAnimation` returns immediately without
effect, so a new start is impossible, contrary to the claim. -/
theorem scheduler_not_idle_after_exception :
    (frameTickSchedule runningState true).running = true
    ∧ startAnimation (frameTickSchedule runningState true)
        = frameTickSchedule runningState true := by
  constructor
  · rfl
  · unfold startAnimation frameTickSchedule runningState baseState
    simp

/-- Claim C7 as amended: if an exception is raised inside one tick while
Running, no further tick is re-armed and the scheduler never self-restarts;
but the state remains Running (the flag is never cleared), so a subsequent
start is a no-op rather than possible. -/
theorem scheduler_exception_no_rearm (s : SysState) (h : s.running = true) :
    (frameTickSchedule s true).frameScheduled = false
    ∧ (frameTickSchedule s true).running = true
    ∧ startAnimation (frameTickSchedule s true) = frameTickSchedule s true := by
  unfold frameTickSchedule startAnimation
  simp [h]

/-- Witness for the amended C7 at the concrete Running state. -/
theorem scheduler_exception_no_rearm_witness :
    (frameTickSchedule runningState true).frameScheduled = false
    ∧ (frameTickSchedule runningState true).running = true
    ∧ startAnimation (frameTickSchedule runningState true)
        = frameTickSchedule runningState true :=
  scheduler_exception_no_rearm runningState rfl

/-- `Math.ceil(particleCount / 64)`, the workgroup count of the one compute
dispatch per tick (particles.js line 358). -/
def dispatchWorkgroupCount (particleCount : ℕ) : ℕ := (particleCount + 63) / 64

/-- The vertex count of the one draw per tick: the code passes
`particleSystem.particleCount` to `renderPass.draw` (particles.js line 379). -/
def drawVertexCount (particleCount : ℕ) : ℕ := particleCount

/-- `vertexMain` maps a vertex to its particle: `particleIndex =
vertexIndex / 6u` (particles.wgsl line 177, 6 vertices per quad). -/
def vertexParticleIndex (vertexIndex : ℕ) : ℕ := vertexIndex / 6

/-- Claim C8 evaluated at the failing input `particleCount = 1024`: the one
compute dispatch of 16 workgroups of 64 covers all 1024 particles, but the
draw is issued with 1024 vertices — not `6 * 1024` — so under the quad
shader's `vertexIndex / 6` indexing only particles 0..170 receive any
vertex; particle 171 and particle 1023 are never rendered.  This contradicts
the shader's own 6-vertices-per-quad design: the claim (and spec) state the
intent, the `draw(particleCount)` call is the slip. -/
theorem draw_undercovers_particles :
    dispatchWorkgroupCount 1024 * 64 = 1024
    ∧ drawVertexCount 1024 = 1024
    ∧ drawVertexCount 1024 < 6 * 1024
    ∧ ((List.range (drawVertexCount 1024)).map vertexParticleIndex).contains 170
        = true
    ∧ ((List.range (drawVertexCount 1024)).map vertexParticleIndex).contains 171
        = false
    ∧ ((List.range (drawVertexCount 1024)).map vertexParticleIndex).contains 1023
        = false := by
  decide

end Pcad
